import Mathlib

/-!
Verification development for `alltrailsgpx`: a converter that extracts an
encoded polyline string and a route name from a JSON document (one of two
accepted shapes) and produces a GPX track document.

The definitions below are a shallow embedding of `src/lib.rs` and
`src/main.rs`.  External collaborators (the `serde_json` pointer lookup, the
`polyline` codec crate and the `gpx` document types) are modelled from the
spec, as noted on each definition.  Machine floating-point (`f64`) is
modelled by exact rationals `ℚ`; machine integers (`i64`) by unbounded `ℤ`.
-/

/-- A parsed JSON document tree, as produced by the external `serde_json`
parser: null, booleans, numbers, strings, arrays and objects (ordered lists
of key/value pairs, looked up by first match). -/
inductive Json where
  | null : Json
  | bool (b : Bool) : Json
  | num (q : ℚ) : Json
  | str (s : String) : Json
  | arr (elems : List Json) : Json
  | obj (fields : List (String × Json)) : Json

/-- First-match association-list lookup, modelling `Map::get` on a JSON
object. -/
def lookupField : List (String × Json) → String → Option Json
  | [], _ => none
  | (k, v) :: rest, key => if k = key then some v else lookupField rest key

/-- Splits a character list on `/` separators, modelling Rust
`str::split('/')`: the empty string yields one empty piece, and a leading
separator yields a leading empty piece. -/
def splitSlash : List Char → List (List Char)
  | [] => [[]]
  | c :: rest =>
    if c = '/' then [] :: splitSlash rest
    else
      match splitSlash rest with
      | t :: ts => (c :: t) :: ts
      | [] => [[c]]

/-- Left-to-right non-overlapping replacement of `~1` by `/`, modelling the
first `str::replace` applied to a JSON-pointer token. -/
def unescapeTilde1 : List Char → List Char
  | '~' :: '1' :: rest => '/' :: unescapeTilde1 rest
  | c :: rest => c :: unescapeTilde1 rest
  | [] => []

/-- Left-to-right non-overlapping replacement of `~0` by `~`, modelling the
second `str::replace` applied to a JSON-pointer token. -/
def unescapeTilde0 : List Char → List Char
  | '~' :: '0' :: rest => '~' :: unescapeTilde0 rest
  | c :: rest => c :: unescapeTilde0 rest
  | [] => []

/-- A JSON-pointer token with both escapes applied, in the order
`replace("~1", "/").replace("~0", "~")` used by `serde_json`. -/
def unescapeToken (t : List Char) : String :=
  String.mk (unescapeTilde0 (unescapeTilde1 t))

/-- Accumulates a decimal digit string into a natural number, returning
`none` on any non-digit, modelling `str::parse::<usize>` (indices large
enough to overflow `usize` index past the end of every array here, so the
unbounded result is observationally equal). -/
def digitsAux : List Char → ℕ → Option ℕ
  | [], acc => some acc
  | c :: rest, acc =>
    if c.isDigit then digitsAux rest (acc * 10 + (c.toNat - 48)) else none

/-- Parses an array-index token, modelling `serde_json`'s `parse_index`:
rejects a leading `+`, rejects superfluous leading zeros, then parses the
decimal digits. -/
def parseIndex (t : List Char) : Option ℕ :=
  match t with
  | [] => none
  | c :: rest =>
    if c = '+' then none
    else if c = '0' ∧ rest ≠ [] then none
    else digitsAux (c :: rest) 0

/-- Traverses a JSON value along a list of already-unescaped pointer tokens:
object members by key, array elements by `parseIndex`; any other value with
tokens remaining is a failed lookup.  Models the `try_fold` in
`serde_json::Value::pointer`. -/
def ptrGo : Json → List String → Option Json
  | j, [] => some j
  | Json.obj fields, t :: ts =>
    match lookupField fields t with
    | some v => ptrGo v ts
    | none => none
  | Json.arr elems, t :: ts =>
    match parseIndex t.data with
    | some i =>
      match elems.get? i with
      | some v => ptrGo v ts
      | none => none
    | none => none
  | _, _ :: _ => none

/-- Modelled from the spec: the structural pointer lookup
(`serde_json::Value::pointer`) used by the JSON Locator — the empty pointer
designates the whole document, a pointer not starting with `/` never
matches, and otherwise the slash-separated, escape-decoded tokens are
traversed. -/
def Json.pointer (j : Json) (path : String) : Option Json :=
  match path.data with
  | [] => some j
  | '/' :: rest => ptrGo j ((splitSlash rest).map unescapeToken)
  | _ => none

/-- Models `Value::as_str`: the string payload when the value is textual. -/
def Json.as_str : Json → Option String
  | Json.str s => some s
  | _ => none

/-- The error taxonomy of `lib.rs` (payloads of the wrapped external errors
are irrelevant to the claims and omitted). -/
inductive Error where
  | polylineNotFound
  | polylineNotString
  | routeNameNotFound
  | routeNameNotString
  | polylineDecodeError
  | jsonParseError
  | fileError
  | gpxWriteError
deriving DecidableEq

/-- The two candidate pointer paths for the encoded polyline, in priority
order: the "offline" shape (rooted at `trails`) then the "deep" shape
(rooted at `maps`). -/
def polyline_paths : List String :=
  ["/trails/0/defaultMap/routes/0/lineSegments/0/polyline/pointsData",
   "/maps/0/routes/0/lineSegments/0/polyline/pointsData"]

/-- The two candidate pointer paths for the route name, in priority order. -/
def route_name_paths : List String :=
  ["/trails/0/name", "/maps/0/name"]

/-- Models `find_in_json` from `lib.rs`: the first pointer lookup among the
candidate paths that succeeds, `none` if all fail. -/
def find_in_json (json : Json) (paths : List String) : Option Json :=
  paths.findSome? (fun path => json.pointer path)

/-- Models `extract_polyline` from `lib.rs` (the `Polyline` newtype is a
transparent `Deref` wrapper, modelled as the underlying string). -/
def extract_polyline (json : Json) : Except Error String :=
  match find_in_json json polyline_paths with
  | none => Except.error Error.polylineNotFound
  | some v =>
    match v.as_str with
    | none => Except.error Error.polylineNotString
    | some s => Except.ok s

/-- Models `extract_route_name` from `lib.rs` (the `RouteName` newtype is a
transparent `Deref` wrapper, modelled as the underlying string). -/
def extract_route_name (json : Json) : Except Error String :=
  match find_in_json json route_name_paths with
  | none => Except.error Error.routeNameNotFound
  | some v =>
    match v.as_str with
    | none => Except.error Error.routeNameNotString
    | some s => Except.ok s

/-- The fixed decimal precision of the polyline encoding (`lib.rs`). -/
def POLYLINE_PRECISION : ℕ := 5

/-- Rounding half away from zero, the behavior of Rust `f64::round`, on
exact rationals. -/
def roundAway (q : ℚ) : ℤ :=
  if q < 0 then -⌊-q + 1/2⌋ else ⌊q + 1/2⌋

/-- Modelled from the spec: the scaling step of the polyline codec — a
coordinate component is multiplied by the precision factor and rounded to
the nearest integer. -/
def scale (n : ℚ) (factor : ℚ) : ℤ :=
  roundAway (n * factor)

/-- Zig-zag encoding of a signed delta: the value is shifted left once and
bitwise-negated when negative (`!(d << 1) = -2d - 1` on two's complement). -/
def zigzag (d : ℤ) : ℕ :=
  (if d < 0 then -(2 * d) - 1 else 2 * d).toNat

/-- Zig-zag decoding: an odd transport value came from a negative delta
(`!(r >> 1)`), an even one from a non-negative delta (`r >> 1`). -/
def unzigzag (r : ℕ) : ℤ :=
  if r % 2 = 1 then -((r / 2 : ℕ) : ℤ) - 1 else ((r / 2 : ℕ) : ℤ)

/-- Modelled from the spec: one variable-length base-32 chunk of the
polyline encoding.  While five-bit groups remain above the payload, a
continuation byte `(0x20 ||| (v % 32)) + 63` is emitted (`% 32` models
`& 0x1f` and `/ 32` models `>> 5` on non-negative machine integers), then
the final byte `v + 63`. -/
def encChunk (v : ℕ) : List ℕ :=
  if 32 ≤ v then ((32 ||| v % 32) + 63) :: encChunk (v / 32)
  else [v + 63]
termination_by v
decreasing_by exact Nat.div_lt_self (by omega) (by omega)

/-- Modelled from the spec: decoding one variable-length chunk from a byte
stream.  A byte outside the expected alphabet `63..=126` is an invalid
character; a continuation byte with no successor is a truncated encoding.
`acc + (v % 32) * 2 ^ shift` models `result |= (byte & 0x1f) << shift`
(the or is a sum because the bit ranges are disjoint). -/
def decChunk : List ℕ → ℕ → ℕ → Option (ℕ × List ℕ)
  | [], _, _ => none
  | b :: rest, shift, acc =>
    if b < 63 ∨ 126 < b then none
    else
      let v := b - 63
      let acc2 := acc + v % 32 * 2 ^ shift
      if 32 ≤ v then decChunk rest (shift + 5) acc2
      else some (acc2, rest)

/-- Modelled from the spec: the encoding loop of the polyline codec.  Each
coordinate `(longitude, latitude)` is scaled, then the latitude delta and
the longitude delta from the previous scaled coordinate are emitted, in
that order. -/
def encGo (factor : ℚ) : List (ℚ × ℚ) → ℤ → ℤ → List ℕ
  | [], _, _ => []
  | (x, y) :: rest, prevLat, prevLon =>
    let scaledLat := scale y factor
    let scaledLon := scale x factor
    encChunk (zigzag (scaledLat - prevLat)) ++
      (encChunk (zigzag (scaledLon - prevLon)) ++ encGo factor rest scaledLat scaledLon)

/-- Modelled from the spec: `polyline::encode_coordinates` — scales each
pair by `10 ^ precision` and emits delta chunks, latitude first, as an
ASCII string (used by the repository only to build test fixtures). -/
def encode_coordinates (coordinates : List (ℚ × ℚ)) (precision : ℕ) : String :=
  String.mk ((encGo ((10 : ℚ) ^ precision) coordinates 0 0).map Char.ofNat)

/-- A successful chunk decode consumes at least one byte. -/
theorem decChunk_length_lt : ∀ (bs : List ℕ) (shift acc v : ℕ) (rest : List ℕ),
    decChunk bs shift acc = some (v, rest) → rest.length < bs.length := by
  intro bs
  induction bs with
  | nil => intro shift acc v rest h; simp [decChunk] at h
  | cons b tl ih =>
    intro shift acc v rest h
    simp only [decChunk] at h
    split at h
    · exact absurd h (by simp)
    · split at h
      · have := ih _ _ _ _ h
        simpa using Nat.lt_succ_of_lt this
      · simp at h
        simp [h.2]

/-- Modelled from the spec: the decoding loop of the polyline codec.  While
bytes remain, a latitude chunk and a longitude chunk are decoded, the
running scaled coordinate is updated by the zig-zag-decoded deltas, and the
absolute scaled pair `(longitude, latitude)` is appended. -/
def decGo (bytes : List ℕ) (lat lon : ℤ) : Option (List (ℤ × ℤ)) :=
  if hbs : bytes = [] then some []
  else
    match h1 : decChunk bytes 0 0 with
    | none => none
    | some (rlat, rest1) =>
      match h2 : decChunk rest1 0 0 with
      | none => none
      | some (rlon, rest2) =>
        let lat2 := lat + unzigzag rlat
        let lon2 := lon + unzigzag rlon
        (decGo rest2 lat2 lon2).map (fun tail => (lon2, lat2) :: tail)
termination_by bytes.length
decreasing_by
  exact Nat.lt_trans (decChunk_length_lt _ _ _ _ _ h2) (decChunk_length_lt _ _ _ _ _ h1)

/-- Modelled from the spec: `polyline::decode_polyline` — decodes the byte
sequence of the ASCII polyline string and divides each reconstructed scaled
pair by `10 ^ precision`.  Fails (`none`, standing for
`PolylineDecodeError`) on invalid characters or truncated chunks. -/
def decode_polyline (polyline : String) (precision : ℕ) : Option (List (ℚ × ℚ)) :=
  (decGo (polyline.data.map Char.toNat) 0 0).map
    (List.map (fun p => ((p.1 : ℚ) / (10 : ℚ) ^ precision, (p.2 : ℚ) / (10 : ℚ) ^ precision)))

/-- The fixed producer label (`lib.rs`). -/
def GPX_CREATOR : String := "alltrailsgpx"

/-- The GPX format version marker of the `gpx` crate. -/
inductive GpxVersion where
  | gpx10
  | gpx11
  | unknown
deriving DecidableEq

/-- Modelled from the spec: a GPX track point — longitude/latitude plus the
optional per-point fields relevant to the claims (elevation, time, and a
stand-in for the remaining extended fields), all absent by default. -/
structure Waypoint where
  point : ℚ × ℚ
  elevation : Option ℚ
  time : Option String
  extensions : Option String
deriving DecidableEq

/-- Models `Waypoint::new(point)`: only the coordinate is set. -/
def Waypoint.new (p : ℚ × ℚ) : Waypoint :=
  { point := p, elevation := none, time := none, extensions := none }

/-- Modelled from the spec: a contiguous run of track points. -/
structure TrackSegment where
  points : List Waypoint
deriving DecidableEq

/-- Modelled from the spec: a named track; `comment` and `description`
stand in for the remaining fields left at `Default::default()`. -/
structure Track where
  name : Option String
  comment : Option String
  description : Option String
  segments : List TrackSegment
deriving DecidableEq

/-- Modelled from the spec: the top-level output document with its format
version, producer label and track list; `metadata` stands in for the
remaining fields left at `Default::default()`. -/
structure Gpx where
  version : GpxVersion
  creator : Option String
  metadata : Option String
  tracks : List Track
deriving DecidableEq

/-- Models `create_gpx` from `lib.rs`: one waypoint per coordinate in
order, a single segment, the given route name, everything else default. -/
def create_gpx (line_string : List (ℚ × ℚ)) (name : String) : Track :=
  let waypoints : List Waypoint := line_string.map Waypoint.new
  { name := some name, comment := none, description := none,
    segments := [{ points := waypoints }] }

/-- Models `write_gpx` from `lib.rs`: the document handed to the external
`gpx::write` serializer — version `Gpx11`, creator `GPX_CREATOR`, exactly
the one given track.  The byte serialization itself is the external
collaborator; the written document is modelled by this value. -/
def write_gpx (track : Track) : Gpx :=
  { version := GpxVersion.gpx11, creator := some GPX_CREATOR,
    metadata := none, tracks := [track] }

/-- Models `run` from `lib.rs` on an already-parsed document (the byte
parse is the external `serde_json::from_reader`, identical in both
pipelines): extract the polyline and the route name, decode, assemble, and
produce the output document.  The document is produced only when every
stage succeeds, matching the control flow in which `write_gpx` runs last. -/
def run (json : Json) : Except Error Gpx := do
  let polyline ← extract_polyline json
  let route_name ← extract_route_name json
  match decode_polyline polyline POLYLINE_PRECISION with
  | none => Except.error Error.polylineDecodeError
  | some line_string => Except.ok (write_gpx (create_gpx line_string route_name))

/-- Models `find_in_json` from `main.rs` (textually identical logic to the
`lib.rs` version). -/
def find_in_json_m (json : Json) (paths : List String) : Option Json :=
  paths.findSome? (fun path => json.pointer path)

/-- Models `extract_polyline` from `main.rs`: same lookups, `anyhow`
context strings as errors. -/
def extract_polyline_m (json : Json) : Except String String :=
  match find_in_json_m json polyline_paths with
  | none => Except.error "Polyline data not found in JSON"
  | some v =>
    match v.as_str with
    | none => Except.error "Polyline data is not a string"
    | some s => Except.ok s

/-- Models `extract_route_name` from `main.rs`: same lookups, `anyhow`
context strings as errors. -/
def extract_route_name_m (json : Json) : Except String String :=
  match find_in_json_m json route_name_paths with
  | none => Except.error "Route name not found in JSON"
  | some v =>
    match v.as_str with
    | none => Except.error "Route name data is not a string"
    | some s => Except.ok s

/-- Models `create_gpx` from `main.rs` (`line_string.0` and
`line_string.into_inner()` read the same wrapped vector). -/
def create_gpx_m (line_string : List (ℚ × ℚ)) (name : String) : Track :=
  let waypoints : List Waypoint := line_string.map Waypoint.new
  { name := some name, comment := none, description := none,
    segments := [{ points := waypoints }] }

/-- Models `write_gpx` from `main.rs`: identical document, creator written
as the inline literal. -/
def write_gpx_m (track : Track) : Gpx :=
  { version := GpxVersion.gpx11, creator := some "alltrailsgpx",
    metadata := none, tracks := [track] }

/-- Models `run` from `main.rs` on an already-parsed document: the same
stages with the precision written as the literal `5` and errors as
`anyhow` context strings (the extra `BufWriter` around the sink does not
change the written bytes). -/
def run_m (json : Json) : Except String Gpx := do
  let polyline_str ← extract_polyline_m json
  let route_name ← extract_route_name_m json
  match decode_polyline polyline_str 5 with
  | none => Except.error "Failed to decode polyline"
  | some line_string => Except.ok (write_gpx_m (create_gpx_m line_string route_name))

/-- A fixed "offline"-shape document with the given polyline text, shaped
like the repository's `test_offline_format_conversion` fixture. -/
def sample_offline (poly : String) : Json :=
  Json.obj [("trails", Json.arr [Json.obj
    [("name", Json.str "My Test Trail"),
     ("defaultMap", Json.obj [("routes", Json.arr [Json.obj
       [("lineSegments", Json.arr [Json.obj
         [("polyline", Json.obj [("pointsData", Json.str poly)])]])]])])]])]

/-- A document that satisfies both accepted shapes at once, with distinct
polyline and name values under each shape. -/
def sample_both : Json :=
  Json.obj
    [("trails", Json.arr [Json.obj
      [("name", Json.str "Offline Name"),
       ("defaultMap", Json.obj [("routes", Json.arr [Json.obj
         [("lineSegments", Json.arr [Json.obj
           [("polyline", Json.obj [("pointsData", Json.str "offlinePoly")])]])]])])]]),
     ("maps", Json.arr [Json.obj
      [("name", Json.str "Deep Name"),
       ("routes", Json.arr [Json.obj
         [("lineSegments", Json.arr [Json.obj
           [("polyline", Json.obj [("pointsData", Json.str "deepPoly")])]])]])]])]

theorem decGo_nil (lat lon : ℤ) : decGo [] lat lon = some [] := by
  rw [decGo.eq_def]
  simp

theorem decGo_step (bytes : List ℕ) (hbs : bytes ≠ []) (lat lon : ℤ)
    (r1 r2 : ℕ) (m1 m2 : List ℕ)
    (h1 : decChunk bytes 0 0 = some (r1, m1)) (h2 : decChunk m1 0 0 = some (r2, m2)) :
    decGo bytes lat lon =
      (decGo m2 (lat + unzigzag r1) (lon + unzigzag r2)).map
        (fun tail => (lon + unzigzag r2, lat + unzigzag r1) :: tail) := by
  rw [decGo.eq_def]
  rw [dif_neg hbs]
  split
  · simp_all
  · rename_i heq
    rw [h1] at heq
    cases heq
    split
    · simp_all
    · rename_i heq2
      rw [h2] at heq2
      cases heq2
      rfl

theorem or32_eq (x : ℕ) (hx : x < 32) : 32 ||| x = 32 + x := by
  revert hx
  revert x
  decide

theorem encChunk_ge (v : ℕ) (h : 32 ≤ v) :
    encChunk v = ((32 ||| v % 32) + 63) :: encChunk (v / 32) := by
  rw [encChunk.eq_def]
  rw [if_pos h]

theorem encChunk_lt (v : ℕ) (h : ¬ 32 ≤ v) : encChunk v = [v + 63] := by
  rw [encChunk.eq_def]
  rw [if_neg h]

theorem unzigzag_zigzag (d : ℤ) : unzigzag (zigzag d) = d := by
  unfold zigzag unzigzag
  by_cases hd : d < 0
  · rw [if_pos hd]
    have h1 : (-(2 * d) - 1).toNat = 2 * (-d - 1).toNat + 1 := by omega
    rw [h1]
    rw [if_pos (by omega)]
    omega
  · rw [if_neg hd]
    have h1 : (2 * d).toNat = 2 * d.toNat := by omega
    rw [h1]
    rw [if_neg (by omega)]
    omega

theorem decChunk_encChunk (v : ℕ) : ∀ (shift acc : ℕ) (rest : List ℕ),
    decChunk (encChunk v ++ rest) shift acc = some (acc + v * 2 ^ shift, rest) := by
  induction v using Nat.strong_induction_on with
  | _ v ih =>
    intro shift acc rest
    by_cases h : 32 ≤ v
    · rw [encChunk_ge v h]
      have hor : (32 ||| v % 32) = 32 + v % 32 := or32_eq _ (Nat.mod_lt _ (by omega))
      rw [hor]
      rw [List.cons_append]
      rw [decChunk]
      rw [if_neg (by omega)]
      have hv : 32 + v % 32 + 63 - 63 = 32 + v % 32 := by omega
      simp only [hv]
      rw [if_pos (by omega)]
      have hmod : (32 + v % 32) % 32 = v % 32 := by omega
      rw [hmod]
      rw [ih (v / 32) (Nat.div_lt_self (by omega) (by omega)) (shift + 5)]
      congr 1
      congr 1
      have hpow : (2 : ℕ) ^ (shift + 5) = 2 ^ shift * 32 := by
        rw [pow_add]
        norm_num
      rw [hpow]
      have hsplit : v % 32 + 32 * (v / 32) = v := Nat.mod_add_div v 32
      calc acc + v % 32 * 2 ^ shift + v / 32 * (2 ^ shift * 32)
          = acc + (v % 32 + 32 * (v / 32)) * 2 ^ shift := by ring
        _ = acc + v * 2 ^ shift := by rw [hsplit]
    · rw [encChunk_lt v h]
      rw [List.cons_append]
      rw [decChunk]
      rw [if_neg (by omega)]
      have hv : v + 63 - 63 = v := by omega
      simp only [hv]
      rw [if_neg h]
      have hmod : v % 32 = v := Nat.mod_eq_of_lt (by omega)
      rw [hmod]
      simp

theorem encChunk_ne_nil (v : ℕ) : encChunk v ≠ [] := by
  by_cases h : 32 ≤ v
  · rw [encChunk_ge v h]
    simp
  · rw [encChunk_lt v h]
    simp

theorem decGo_encGo (factor : ℚ) :
    ∀ (cs : List (ℚ × ℚ)) (prevLat prevLon : ℤ),
    decGo (encGo factor cs prevLat prevLon) prevLat prevLon =
      some (cs.map (fun p => (scale p.1 factor, scale p.2 factor))) := by
  intro cs
  induction cs with
  | nil => intro prevLat prevLon; simp [encGo, decGo_nil]
  | cons hd tl ih =>
    intro prevLat prevLon
    obtain ⟨x, y⟩ := hd
    simp only [encGo]
    have h1 : decChunk
        (encChunk (zigzag (scale y factor - prevLat)) ++
          (encChunk (zigzag (scale x factor - prevLon)) ++ encGo factor tl (scale y factor) (scale x factor)))
        0 0 = some (zigzag (scale y factor - prevLat),
          encChunk (zigzag (scale x factor - prevLon)) ++ encGo factor tl (scale y factor) (scale x factor)) := by
      rw [decChunk_encChunk]
      norm_num
    have h2 : decChunk
        (encChunk (zigzag (scale x factor - prevLon)) ++ encGo factor tl (scale y factor) (scale x factor))
        0 0 = some (zigzag (scale x factor - prevLon),
          encGo factor tl (scale y factor) (scale x factor)) := by
      rw [decChunk_encChunk]
      norm_num
    rw [decGo_step _ (by simp [encChunk_ne_nil]) _ _ _ _ _ _ h1 h2]
    rw [unzigzag_zigzag, unzigzag_zigzag]
    have hlat : prevLat + (scale y factor - prevLat) = scale y factor := by ring
    have hlon : prevLon + (scale x factor - prevLon) = scale x factor := by ring
    rw [hlat, hlon]
    rw [ih]
    simp

theorem char_toNat_ofNat (b : ℕ) (hb : b ≤ 126) : (Char.ofNat b).toNat = b := by
  have hv : b.isValidChar := Or.inl (by omega)
  simp [Char.ofNat, hv, Char.toNat, Char.ofNatAux, UInt32.toNat, BitVec.toNat_ofNatLt]

theorem encChunk_le (v : ℕ) : ∀ b ∈ encChunk v, b ≤ 126 := by
  induction v using Nat.strong_induction_on with
  | _ v ih =>
    intro b hb
    by_cases h : 32 ≤ v
    · rw [encChunk_ge v h] at hb
      rcases List.mem_cons.mp hb with hb | hb
      · have hor : (32 ||| v % 32) = 32 + v % 32 := or32_eq _ (Nat.mod_lt _ (by omega))
        omega
      · exact ih (v / 32) (Nat.div_lt_self (by omega) (by omega)) b hb
    · rw [encChunk_lt v h] at hb
      simp at hb
      omega

theorem encGo_le (factor : ℚ) :
    ∀ (cs : List (ℚ × ℚ)) (prevLat prevLon : ℤ), ∀ b ∈ encGo factor cs prevLat prevLon, b ≤ 126 := by
  intro cs
  induction cs with
  | nil => intro prevLat prevLon b hb; simp [encGo] at hb
  | cons hd tl ih =>
    intro prevLat prevLon b hb
    obtain ⟨x, y⟩ := hd
    simp only [encGo] at hb
    rcases List.mem_append.mp hb with hb | hb
    · exact encChunk_le _ b hb
    · rcases List.mem_append.mp hb with hb | hb
      · exact encChunk_le _ b hb
      · exact ih _ _ b hb

theorem map_char_round (l : List ℕ) (hl : ∀ b ∈ l, b ≤ 126) :
    (l.map Char.ofNat).map Char.toNat = l := by
  induction l with
  | nil => simp
  | cons hd tl ih =>
    simp only [List.map_cons, List.cons.injEq]
    constructor
    · exact char_toNat_ofNat hd (hl hd (by simp))
    · exact ih (fun b hb => hl b (by simp [hb]))

theorem decode_encode (cs : List (ℚ × ℚ)) (precision : ℕ) :
    decode_polyline (encode_coordinates cs precision) precision =
      some (cs.map (fun p =>
        ((scale p.1 ((10 : ℚ) ^ precision) : ℚ) / (10 : ℚ) ^ precision,
         (scale p.2 ((10 : ℚ) ^ precision) : ℚ) / (10 : ℚ) ^ precision))) := by
  unfold decode_polyline encode_coordinates
  have hdata : (String.mk ((encGo ((10 : ℚ) ^ precision) cs 0 0).map Char.ofNat)).data
      = (encGo ((10 : ℚ) ^ precision) cs 0 0).map Char.ofNat := rfl
  rw [hdata]
  rw [map_char_round _ (encGo_le _ cs 0 0)]
  rw [decGo_encGo]
  simp [List.map_map]

theorem roundAway_close (q : ℚ) : |((roundAway q : ℤ) : ℚ) - q| ≤ 1 / 2 := by
  unfold roundAway
  by_cases h : q < 0
  · rw [if_pos h]
    have h1 : ((⌊-q + 1/2⌋ : ℤ) : ℚ) ≤ -q + 1/2 := Int.floor_le _
    have h2 : (-q + 1/2 : ℚ) - 1 < ((⌊-q + 1/2⌋ : ℤ) : ℚ) := Int.sub_one_lt_floor _
    rw [abs_le]
    constructor
    · push_cast
      linarith
    · push_cast
      linarith
  · rw [if_neg h]
    have h1 : ((⌊q + 1/2⌋ : ℤ) : ℚ) ≤ q + 1/2 := Int.floor_le _
    have h2 : (q + 1/2 : ℚ) - 1 < ((⌊q + 1/2⌋ : ℤ) : ℚ) := Int.sub_one_lt_floor _
    rw [abs_le]
    constructor
    · linarith
    · linarith

theorem scale_div_close (x : ℚ) (factor : ℚ) (hf : 0 < factor) :
    |((scale x factor : ℤ) : ℚ) / factor - x| ≤ 1 / (2 * factor) := by
  unfold scale
  have h := roundAway_close (x * factor)
  have hne : factor ≠ 0 := ne_of_gt hf
  have heq : ((roundAway (x * factor) : ℤ) : ℚ) / factor - x
      = (((roundAway (x * factor) : ℤ) : ℚ) - x * factor) / factor := by
    field_simp
    ring
  rw [heq]
  rw [abs_div]
  rw [abs_of_pos hf]
  rw [div_le_div_iff₀ hf (by positivity)]
  calc |((roundAway (x * factor) : ℤ) : ℚ) - x * factor| * (2 * factor)
      ≤ (1 / 2) * (2 * factor) := by
        apply mul_le_mul_of_nonneg_right h
        positivity
    _ = factor := by ring
    _ = 1 * factor := by ring

theorem find_in_json_eq_first (j : Json) (paths : List String) :
    find_in_json j paths
      = (paths.find? (fun p => (j.pointer p).isSome)).bind (fun p => j.pointer p) := by
  induction paths with
  | nil => simp [find_in_json]
  | cons hd tl ih =>
    cases h : j.pointer hd with
    | none =>
      simp only [find_in_json, List.findSome?_cons, h, List.find?_cons, Option.isSome_none,
        Bool.false_eq_true, if_false, cond_false] at ih ⊢
      exact ih
    | some v =>
      simp [find_in_json, List.findSome?_cons, h, List.find?_cons, Option.isSome]

theorem find_in_json_none_iff (j : Json) (paths : List String) :
    find_in_json j paths = none ↔ ∀ p ∈ paths, j.pointer p = none := by
  induction paths with
  | nil => simp [find_in_json]
  | cons hd tl ih =>
    cases h : j.pointer hd with
    | none =>
      simp only [find_in_json, List.findSome?_cons, h, Option.none_orElse, List.forall_mem_cons] at ih ⊢
      simp [ih, h]
    | some v => simp [find_in_json, List.findSome?_cons, h]

/-- C1: `find_in_json` returns the value at the first path in the list that
resolves in the document and `none` when no path resolves; consequently, on
a document where the "offline" (trails-rooted) paths resolve — in
particular one satisfying both accepted shapes — `extract_polyline` and
`extract_route_name` return the values found at the "offline" paths. -/
theorem claim_C1_locator_first_match (j : Json) (paths : List String) :
    (find_in_json j paths
        = (paths.find? (fun p => (j.pointer p).isSome)).bind (fun p => j.pointer p))
    ∧ (find_in_json j paths = none ↔ ∀ p ∈ paths, j.pointer p = none)
    ∧ (∀ vp, j.pointer "/trails/0/defaultMap/routes/0/lineSegments/0/polyline/pointsData" = some vp →
        find_in_json j polyline_paths = some vp)
    ∧ (∀ vn, j.pointer "/trails/0/name" = some vn →
        find_in_json j route_name_paths = some vn)
    ∧ (∀ s, j.pointer "/trails/0/defaultMap/routes/0/lineSegments/0/polyline/pointsData"
          = some (Json.str s) → extract_polyline j = Except.ok s)
    ∧ (∀ s, j.pointer "/trails/0/name" = some (Json.str s) →
        extract_route_name j = Except.ok s) := by
  refine ⟨find_in_json_eq_first j paths, find_in_json_none_iff j paths, ?_, ?_, ?_, ?_⟩
  · intro vp hvp
    simp [find_in_json, polyline_paths, List.findSome?_cons, hvp]
  · intro vn hvn
    simp [find_in_json, route_name_paths, List.findSome?_cons, hvn]
  · intro s hs
    have : find_in_json j polyline_paths = some (Json.str s) := by
      simp [find_in_json, polyline_paths, List.findSome?_cons, hs]
    simp [extract_polyline, this, Json.as_str]
  · intro s hs
    have : find_in_json j route_name_paths = some (Json.str s) := by
      simp [find_in_json, route_name_paths, List.findSome?_cons, hs]
    simp [extract_route_name, this, Json.as_str]

/-- Witness for C1: a concrete document satisfying both accepted shapes,
on which extraction returns the "offline" values. -/
theorem claim_C1_witness :
    Json.pointer sample_both "/trails/0/defaultMap/routes/0/lineSegments/0/polyline/pointsData"
        = some (Json.str "offlinePoly")
    ∧ Json.pointer sample_both "/trails/0/name" = some (Json.str "Offline Name")
    ∧ Json.pointer sample_both "/maps/0/routes/0/lineSegments/0/polyline/pointsData"
        = some (Json.str "deepPoly")
    ∧ Json.pointer sample_both "/maps/0/name" = some (Json.str "Deep Name")
    ∧ extract_polyline sample_both = Except.ok "offlinePoly"
    ∧ extract_route_name sample_both = Except.ok "Offline Name" :=
  ⟨rfl, rfl, rfl, rfl,
   (claim_C1_locator_first_match sample_both []).2.2.2.2.1 "offlinePoly" rfl,
   (claim_C1_locator_first_match sample_both []).2.2.2.2.2 "Offline Name" rfl⟩

/-- C2: `extract_polyline` fails with `PolylineNotFound` exactly when
neither candidate path resolves, and with `PolylineNotString` exactly when
the first resolving value is not a string; `extract_route_name` behaves
analogously with `RouteNameNotFound` / `RouteNameNotString`. -/
theorem claim_C2_extract_error_kinds (j : Json) :
    (extract_polyline j = Except.error Error.polylineNotFound
        ↔ find_in_json j polyline_paths = none)
    ∧ (extract_polyline j = Except.error Error.polylineNotString
        ↔ ∃ v, find_in_json j polyline_paths = some v ∧ v.as_str = none)
    ∧ (extract_route_name j = Except.error Error.routeNameNotFound
        ↔ find_in_json j route_name_paths = none)
    ∧ (extract_route_name j = Except.error Error.routeNameNotString
        ↔ ∃ v, find_in_json j route_name_paths = some v ∧ v.as_str = none) := by
  refine ⟨?_, ?_, ?_, ?_⟩
  · cases h : find_in_json j polyline_paths with
    | none => simp [extract_polyline, h]
    | some v =>
      cases hs : v.as_str with
      | none => simp [extract_polyline, h, hs]
      | some s => simp [extract_polyline, h, hs]
  · cases h : find_in_json j polyline_paths with
    | none => simp [extract_polyline, h]
    | some v =>
      cases hs : v.as_str with
      | none => simp [extract_polyline, h, hs]
      | some s => simp [extract_polyline, h, hs]
  · cases h : find_in_json j route_name_paths with
    | none => simp [extract_route_name, h]
    | some v =>
      cases hs : v.as_str with
      | none => simp [extract_route_name, h, hs]
      | some s => simp [extract_route_name, h, hs]
  · cases h : find_in_json j route_name_paths with
    | none => simp [extract_route_name, h]
    | some v =>
      cases hs : v.as_str with
      | none => simp [extract_route_name, h, hs]
      | some s => simp [extract_route_name, h, hs]

/-- C9: the locator is total — a pointer expression that is malformed (not
starting with `/`) or that fails at any traversal step is treated as a
non-match and the next candidate is tried, and the result is always an
`Option` value, never a panic. -/
theorem claim_C9_locator_total (j : Json) (p : String) (ps : List String) :
    (p.data.head? ≠ some '/' → p ≠ "" → j.pointer p = none)
    ∧ (j.pointer p = none → find_in_json j (p :: ps) = find_in_json j ps)
    ∧ find_in_json j [] = none
    ∧ (find_in_json j (p :: ps) = none ∨ ∃ v, find_in_json j (p :: ps) = some v) := by
  refine ⟨?_, ?_, ?_, ?_⟩
  · intro hhead hne
    unfold Json.pointer
    cases hd : p.data with
    | nil =>
      exfalso
      apply hne
      cases p with
      | mk data => simp at hd; simp [hd]
    | cons c rest =>
      rw [hd] at hhead
      simp only [List.head?_cons, ne_eq, Option.some.injEq] at hhead
      split
      · rename_i heq
        exact absurd heq (by simp)
      · rename_i heq
        exact absurd (List.cons_eq_cons.mp heq).1 hhead
      · rfl
  · intro hp
    simp [find_in_json, List.findSome?_cons, hp]
  · simp [find_in_json]
  · cases h : find_in_json j (p :: ps) with
    | none => exact Or.inl rfl
    | some v => exact Or.inr ⟨v, rfl⟩

/-- Witness for C9: a malformed path (no leading slash) is skipped and the
next candidate is used on a concrete document. -/
theorem claim_C9_witness :
    ("trails".data.head? ≠ some '/' ∧ ("trails" : String) ≠ "")
    ∧ Json.pointer sample_both "trails" = none
    ∧ find_in_json sample_both ["trails", "/trails/0/name"]
        = find_in_json sample_both ["/trails/0/name"] :=
  ⟨⟨by decide, by decide⟩,
   (claim_C9_locator_total sample_both "trails" ["/trails/0/name"]).1 (by decide) (by decide),
   (claim_C9_locator_total sample_both "trails" ["/trails/0/name"]).2.1
     ((claim_C9_locator_total sample_both "trails" ["/trails/0/name"]).1 (by decide) (by decide))⟩

theorem ptrGo_key_none (j : Json) (key : String) (ts : List String)
    (hobj : ∀ fields, j = Json.obj fields → lookupField fields key = none)
    (hidx : parseIndex key.data = none) :
    ptrGo j (key :: ts) = none := by
  cases j with
  | obj fields =>
    have h := hobj fields rfl
    simp [ptrGo, h]
  | arr elems => simp [ptrGo, hidx]
  | null => simp [ptrGo]
  | bool b => simp [ptrGo]
  | num q => simp [ptrGo]
  | str s => simp [ptrGo]

theorem decode_polyline_empty (precision : ℕ) : decode_polyline "" precision = some [] := by
  unfold decode_polyline
  rw [show ("" : String).data.map Char.toNat = [] from rfl]
  rw [decGo_nil]
  rfl

/-- C7: on a parsed document whose root carries neither a `trails` key nor
a `maps` key (in particular any non-object root), the pipeline fails with
`PolylineNotFound`; the output document is only ever produced after every
stage succeeds, so nothing is written before this failure. -/
theorem claim_C7_missing_roots (j : Json)
    (h : ∀ fields, j = Json.obj fields →
      lookupField fields "trails" = none ∧ lookupField fields "maps" = none) :
    run j = Except.error Error.polylineNotFound := by
  have hp1 : Json.pointer j "/trails/0/defaultMap/routes/0/lineSegments/0/polyline/pointsData"
      = none := by
    rw [show Json.pointer j "/trails/0/defaultMap/routes/0/lineSegments/0/polyline/pointsData"
        = ptrGo j ["trails", "0", "defaultMap", "routes", "0", "lineSegments", "0",
            "polyline", "pointsData"] from rfl]
    exact ptrGo_key_none j "trails" _ (fun fields hf => (h fields hf).1) (by decide)
  have hp2 : Json.pointer j "/maps/0/routes/0/lineSegments/0/polyline/pointsData" = none := by
    rw [show Json.pointer j "/maps/0/routes/0/lineSegments/0/polyline/pointsData"
        = ptrGo j ["maps", "0", "routes", "0", "lineSegments", "0",
            "polyline", "pointsData"] from rfl]
    exact ptrGo_key_none j "maps" _ (fun fields hf => (h fields hf).2) (by decide)
  have hfind : find_in_json j polyline_paths = none := by
    simp [find_in_json, polyline_paths, List.findSome?_cons, hp1, hp2]
  have hex : extract_polyline j = Except.error Error.polylineNotFound := by
    simp [extract_polyline, hfind]
  simp only [run, hex]
  rfl

/-- Witness for C7: a concrete object document with neither root key. -/
theorem claim_C7_witness :
    (∀ fields, Json.obj [("foo", Json.null)] = Json.obj fields →
      lookupField fields "trails" = none ∧ lookupField fields "maps" = none)
    ∧ run (Json.obj [("foo", Json.null)]) = Except.error Error.polylineNotFound := by
  constructor
  · intro fields hf
    injection hf with hf
    subst hf
    exact ⟨rfl, rfl⟩
  · exact claim_C7_missing_roots _ (fun fields hf => by
      injection hf with hf
      subst hf
      exact ⟨rfl, rfl⟩)

theorem except_bind_ok {α β ε : Type} (a : α) (f : α → Except ε β) :
    (Except.ok a >>= f : Except ε β) = f a := rfl

theorem except_bind_error {α β ε : Type} (e : ε) (f : α → Except ε β) :
    ((Except.error e : Except ε α) >>= f : Except ε β) = Except.error e := rfl

/-- C5: whenever the pipeline succeeds, the output document declares GPX
version 1.1, the creator string `alltrailsgpx`, and exactly one track,
independently of the input content. -/
theorem claim_C5_fixed_metadata (j : Json) (g : Gpx) (h : run j = Except.ok g) :
    g.version = GpxVersion.gpx11 ∧ g.creator = some GPX_CREATOR ∧ g.tracks.length = 1 := by
  unfold run at h
  cases h1 : extract_polyline j with
  | error e => rw [h1, except_bind_error] at h; simp at h
  | ok p =>
    rw [h1, except_bind_ok] at h
    cases h2 : extract_route_name j with
    | error e => rw [h2, except_bind_error] at h; simp at h
    | ok n =>
      rw [h2, except_bind_ok] at h
      cases h3 : decode_polyline p POLYLINE_PRECISION with
      | none => rw [h3] at h; simp at h
      | some ls =>
        rw [h3] at h
        simp only [Except.ok.injEq] at h
        subst h
        exact ⟨rfl, rfl, rfl⟩

theorem run_sample_empty : run (sample_offline "") = Except.ok (write_gpx (create_gpx [] "My Test Trail")) := by
  have h1 : extract_polyline (sample_offline "") = Except.ok "" := rfl
  have h2 : extract_route_name (sample_offline "") = Except.ok "My Test Trail" := rfl
  unfold run
  rw [h1, except_bind_ok, h2, except_bind_ok, decode_polyline_empty]

/-- Witness for C5: a concrete successful run carrying the fixed
metadata. -/
theorem claim_C5_witness :
    run (sample_offline "") = Except.ok (write_gpx (create_gpx [] "My Test Trail"))
    ∧ (write_gpx (create_gpx [] "My Test Trail")).version = GpxVersion.gpx11
    ∧ (write_gpx (create_gpx [] "My Test Trail")).creator = some GPX_CREATOR
    ∧ (write_gpx (create_gpx [] "My Test Trail")).tracks.length = 1 :=
  ⟨run_sample_empty,
   (claim_C5_fixed_metadata (sample_offline "") _ run_sample_empty).1,
   (claim_C5_fixed_metadata (sample_offline "") _ run_sample_empty).2.1,
   (claim_C5_fixed_metadata (sample_offline "") _ run_sample_empty).2.2⟩

/-- C6: when the located polyline value is the empty string and the route
name resolves to a string, the pipeline succeeds and the output document is
structurally complete: version 1.1, the fixed creator, one track named by
the route name, one segment, zero track points. -/
theorem claim_C6_empty_polyline (j : Json) (s : String)
    (hp : extract_polyline j = Except.ok "") (hn : extract_route_name j = Except.ok s) :
    run j = Except.ok
      { version := GpxVersion.gpx11, creator := some GPX_CREATOR, metadata := none,
        tracks := [{ name := some s, comment := none, description := none,
                     segments := [{ points := [] }] }] } := by
  unfold run
  rw [hp, except_bind_ok, hn, except_bind_ok, decode_polyline_empty]
  rfl

/-- Witness for C6: the empty-polyline fixture document. -/
theorem claim_C6_witness :
    extract_polyline (sample_offline "") = Except.ok ""
    ∧ extract_route_name (sample_offline "") = Except.ok "My Test Trail"
    ∧ run (sample_offline "") = Except.ok
        { version := GpxVersion.gpx11, creator := some GPX_CREATOR, metadata := none,
          tracks := [{ name := some "My Test Trail", comment := none, description := none,
                       segments := [{ points := [] }] }] } :=
  ⟨rfl, rfl, claim_C6_empty_polyline (sample_offline "") "My Test Trail" rfl rfl⟩

/-- C4: `create_gpx` produces a track whose name is exactly the given route
name, with exactly one segment whose points are one track point per
coordinate in decode order, each carrying only the coordinate — no
elevation, time, or extended fields. -/
theorem claim_C4_create_gpx_shape (coords : List (ℚ × ℚ)) (name : String) :
    (create_gpx coords name).name = some name
    ∧ (create_gpx coords name).segments = [{ points := coords.map Waypoint.new }]
    ∧ (∀ p, Waypoint.new p
        = { point := p, elevation := none, time := none, extensions := none })
    ∧ ((create_gpx coords name).segments.map (fun seg => seg.points.map Waypoint.point))
        = [coords] :=
  ⟨rfl, rfl, fun _ => rfl, by
    simp only [create_gpx, List.map_cons, List.map_nil, List.map_map, List.cons.injEq, and_true]
    have : (Waypoint.point ∘ Waypoint.new) = id := rfl
    rw [this, List.map_id]⟩

/-- The translation of each `lib.rs` error to the `anyhow` context message
produced at the same stage by `main.rs`. -/
def errToMsg : Error → String
  | Error.polylineNotFound => "Polyline data not found in JSON"
  | Error.polylineNotString => "Polyline data is not a string"
  | Error.routeNameNotFound => "Route name not found in JSON"
  | Error.routeNameNotString => "Route name data is not a string"
  | Error.polylineDecodeError => "Failed to decode polyline"
  | Error.jsonParseError => "Failed to parse JSON input"
  | Error.fileError => "Failed to open file"
  | Error.gpxWriteError => "Failed to write GPX data"

theorem run_m_eq_run (j : Json) : run_m j = (run j).mapError errToMsg := by
  unfold run run_m
  have hfind : find_in_json_m j polyline_paths = find_in_json j polyline_paths := rfl
  have hfindn : find_in_json_m j route_name_paths = find_in_json j route_name_paths := rfl
  cases h1 : find_in_json j polyline_paths with
  | none =>
    simp [extract_polyline, extract_polyline_m, hfind, h1, except_bind_error, Except.mapError, errToMsg]
  | some v =>
    cases hs : v.as_str with
    | none =>
      simp [extract_polyline, extract_polyline_m, hfind, h1, hs, except_bind_error, Except.mapError, errToMsg]
    | some p =>
      simp only [extract_polyline, extract_polyline_m, hfind, h1, hs, except_bind_ok]
      cases h2 : find_in_json j route_name_paths with
      | none =>
        simp [extract_route_name, extract_route_name_m, hfindn, h2, except_bind_error, Except.mapError, errToMsg]
      | some w =>
        cases hw : w.as_str with
        | none =>
          simp [extract_route_name, extract_route_name_m, hfindn, h2, hw, except_bind_error, Except.mapError, errToMsg]
        | some n =>
          simp only [extract_route_name, extract_route_name_m, hfindn, h2, hw, except_bind_ok]
          cases h3 : decode_polyline p 5 with
          | none =>
            rw [show POLYLINE_PRECISION = 5 from rfl, h3]
            simp [Except.mapError, errToMsg]
          | some ls =>
            rw [show POLYLINE_PRECISION = 5 from rfl, h3]
            simp [Except.mapError, write_gpx, write_gpx_m, create_gpx, create_gpx_m, GPX_CREATOR]

/-- C10: the `lib.rs` pipeline and the `main.rs` pipeline are
observationally equivalent on every parsed document: one succeeds exactly
when the other does, and on success they produce the same output
document (hence the same written bytes from the shared serializer). -/
theorem claim_C10_pipelines_equivalent (j : Json) :
    ((run j).isOk ↔ (run_m j).isOk)
    ∧ (∀ g, run j = Except.ok g ↔ run_m j = Except.ok g) := by
  rw [run_m_eq_run]
  cases h : run j with
  | error e => simp [Except.mapError, Except.isOk, Except.toBool]
  | ok g => simp [Except.mapError, Except.isOk, Except.toBool]

/-- C3 (amended): encoding a non-empty list of (longitude, latitude) pairs
at precision 5 and decoding the result yields the list of quantized
coordinates — same length, in order — with each axis within 5e-6 (half of
the 1e-5 quantum) of the original, the bound the rounding step actually
guarantees. -/
theorem claim_C3_roundtrip_tolerance (cs : List (ℚ × ℚ)) (hcs : cs ≠ []) :
    decode_polyline (encode_coordinates cs POLYLINE_PRECISION) POLYLINE_PRECISION
      = some (cs.map (fun p =>
          (((scale p.1 ((10 : ℚ) ^ POLYLINE_PRECISION) : ℤ) : ℚ) / (10 : ℚ) ^ POLYLINE_PRECISION,
           ((scale p.2 ((10 : ℚ) ^ POLYLINE_PRECISION) : ℤ) : ℚ) / (10 : ℚ) ^ POLYLINE_PRECISION)))
    ∧ ∀ p ∈ cs,
        |((scale p.1 ((10 : ℚ) ^ POLYLINE_PRECISION) : ℤ) : ℚ) / (10 : ℚ) ^ POLYLINE_PRECISION
            - p.1| ≤ 1 / 200000
        ∧ |((scale p.2 ((10 : ℚ) ^ POLYLINE_PRECISION) : ℤ) : ℚ) / (10 : ℚ) ^ POLYLINE_PRECISION
            - p.2| ≤ 1 / 200000 := by
  constructor
  · exact decode_encode cs POLYLINE_PRECISION
  · intro p hp
    have hf : (0 : ℚ) < (10 : ℚ) ^ POLYLINE_PRECISION := by positivity
    have hb : (1 : ℚ) / (2 * (10 : ℚ) ^ POLYLINE_PRECISION) = 1 / 200000 := by
      norm_num [POLYLINE_PRECISION]
    exact ⟨hb ▸ scale_div_close p.1 _ hf, hb ▸ scale_div_close p.2 _ hf⟩

/-- Witness for the amended C3 at a concrete singleton list. -/
theorem claim_C3_witness :
    ([((1 : ℚ), (2 : ℚ))] ≠ [])
    ∧ (decode_polyline (encode_coordinates [((1 : ℚ), (2 : ℚ))] POLYLINE_PRECISION)
          POLYLINE_PRECISION
        = some ([((1 : ℚ), (2 : ℚ))].map (fun p =>
            (((scale p.1 ((10 : ℚ) ^ POLYLINE_PRECISION) : ℤ) : ℚ) / (10 : ℚ) ^ POLYLINE_PRECISION,
             ((scale p.2 ((10 : ℚ) ^ POLYLINE_PRECISION) : ℤ) : ℚ) / (10 : ℚ) ^ POLYLINE_PRECISION)))
        ∧ ∀ p ∈ [((1 : ℚ), (2 : ℚ))],
            |((scale p.1 ((10 : ℚ) ^ POLYLINE_PRECISION) : ℤ) : ℚ) / (10 : ℚ) ^ POLYLINE_PRECISION
                - p.1| ≤ 1 / 200000
            ∧ |((scale p.2 ((10 : ℚ) ^ POLYLINE_PRECISION) : ℤ) : ℚ) / (10 : ℚ) ^ POLYLINE_PRECISION
                - p.2| ≤ 1 / 200000) :=
  ⟨by simp, claim_C3_roundtrip_tolerance [((1 : ℚ), (2 : ℚ))] (by simp)⟩

/-- Counterexample to C3 as stated: for the single coordinate pair
(0.400002, 0) the decoded longitude is 0.4, which differs from the
original by 2e-6, not less than 1e-6. -/
theorem claim_C3_counterexample :
    decode_polyline (encode_coordinates [((200001 : ℚ) / 500000, 0)] 5) 5
        = some [((2 : ℚ) / 5, 0)]
    ∧ ¬ |(2 : ℚ) / 5 - 200001 / 500000| < 1 / 1000000 := by
  constructor
  · rw [decode_encode]
    have h1 : scale ((200001 : ℚ) / 500000) ((10 : ℚ) ^ 5) = 40000 := by
      unfold scale roundAway
      rw [if_neg (by norm_num)]
      rw [Int.floor_eq_iff]
      norm_num
    have h2 : scale (0 : ℚ) ((10 : ℚ) ^ 5) = 0 := by
      unfold scale roundAway
      rw [if_neg (by norm_num)]
      rw [Int.floor_eq_iff]
      norm_num
    simp only [List.map_cons, List.map_nil, h1, h2]
    norm_num
  · have hd : (2 : ℚ) / 5 - 200001 / 500000 = -(1 / 500000) := by norm_num
    rw [hd, abs_neg, abs_of_pos (by norm_num)]
    norm_num
